import Mathlib

/-!
Shallow embedding of `WrapperFunction/__init__.py` of POC-LostItemSearch: a
FastAPI CRUD facade over a Cosmos DB record store, a secondary
by-subcategory container, a ChatService normalization delegate and an Azure
blob container. The store containers, the delegate and the pydantic shape
validators (models.py is an external module here) are passed as explicit
data; handlers become pure functions from (environment, request) to an HTTP
outcome and the updated store.
-/

namespace LostItemSearch

/-- JSON-like field values held in a lost-item document. Nested objects (the
`item` sub-object) carry string fields, which is all the handlers read. -/
inductive Val where
  | str : String → Val
  | time : Nat → Val
  | obj : List (String × String) → Val
deriving DecidableEq, Repr

/-- A document as the Python handlers see it: a dict of field names to values. -/
abbrev Doc := List (String × Val)

/-- Dict lookup: first binding wins (a Python dict has unique keys). -/
def getAssoc {β : Type} : List (String × β) → String → Option β
  | [], _ => none
  | (k, v) :: rest, f => if k = f then some v else getAssoc rest f

/-- Dict assignment `d[k] = v`: replaces the binding in place, appends if absent. -/
def setAssoc {β : Type} : List (String × β) → String → β → List (String × β)
  | [], k, v => [(k, v)]
  | (k1, v1) :: rest, k, v =>
    if k1 = k then (k1, v) :: rest else (k1, v1) :: setAssoc rest k v

/-- An equality filter clause of the query built by `get_lost_items`. -/
inductive Clause where
  | placeEq : String → Clause
  | itemCategoryEq : String → Clause
deriving DecidableEq, Repr

/-- Renders a clause exactly as the f-strings at lines 52 and 56 do. -/
def renderClause : Clause → String
  | .placeEq m => "c.createUserPlace = '" ++ m ++ "'"
  | .itemCategoryEq c => "c.item.categoryName = '" ++ c ++ "'"

/-- Whether a document satisfies a clause (the store's equality-filter
semantics for the spliced value). -/
def clauseHolds (d : Doc) : Clause → Bool
  | .placeEq m => getAssoc d "createUserPlace" == some (Val.str m)
  | .itemCategoryEq c =>
    match getAssoc d "item" with
    | some (Val.obj o) => o.lookup "categoryName" == some c
    | _ => false

/-- Python truthiness of an optional string parameter (`if municipality:`):
false for an absent parameter and for the empty string. -/
def truthy : Option String → Bool
  | none => false
  | some s => !s.isEmpty

/-- The filter clauses `get_lost_items` accumulates (lines 48-56): each truthy
parameter is normalized by the delegate and becomes one equality clause, the
municipality clause first. -/
def listFilters (loc catf : String → String)
    (municipality categoryName : Option String) : List Clause :=
  (if truthy municipality then [Clause.placeEq (loc (municipality.getD ""))] else [])
    ++ (if truthy categoryName then [Clause.itemCategoryEq (catf (categoryName.getD ""))] else [])

/-- The query string `get_lost_items` builds (lines 47-59): the base
full-collection read, plus a WHERE part joining the clauses with AND. -/
def buildListQuery (loc catf : String → String)
    (municipality categoryName : Option String) : String :=
  let fs := (listFilters loc catf municipality categoryName).map renderClause
  if fs.isEmpty then "SELECT * FROM c"
  else "SELECT * FROM c" ++ " WHERE " ++ String.intercalate " AND " fs

/-- The record store executing a filtered read: the documents of the container
satisfying every clause (an empty clause list keeps everything). -/
def queryStore (store : List Doc) (fs : List Clause) : List Doc :=
  store.filter (fun d => fs.all (clauseHolds d))

/-- The HTTP outcome of a handler: a 200 payload, or an HTTPException carrying
a status code and a detail string. -/
inductive Resp (α : Type) where
  | ok : α → Resp α
  | err : Nat → String → Resp α
deriving DecidableEq, Repr

/-- The list comprehension converting store documents to the response model
(line 78): the first document the externally defined validator rejects aborts
the whole conversion with its message, yielding no partial list. -/
def convertItems (validate : Doc → Except String Doc) :
    List Doc → Except String (List Doc)
  | [] => .ok []
  | d :: rest =>
    match validate d with
    | .error e => .error e
    | .ok x =>
      match convertItems validate rest with
      | .error e => .error e
      | .ok xs => .ok (x :: xs)

/-- The module-level environment: the two Cosmos containers and the
ChatService normalization delegate, external collaborators passed as data. -/
structure Env where
  lostItems : List Doc
  bySubcategory : List Doc
  select_location : String → String
  select_category : String → String

/-- GET /lostitems (lines 39-81): builds the filtered query, runs it, returns
an empty list on an empty result, otherwise converts every document; a
conversion failure becomes a 500 with the message in the localized detail. -/
def get_lost_items (env : Env) (validate : Doc → Except String Doc)
    (municipality categoryName : Option String) : Resp (List Doc) :=
  let items := queryStore env.lostItems
    (listFilters env.select_location env.select_category municipality categoryName)
  if items.isEmpty then .ok []
  else
    match convertItems validate items with
    | .ok l => .ok l
    | .error e => .err 500 ("データの変換に失敗しました: " ++ e)

/-- GET /lostitems/subcategory (lines 83-112): normalizes the subcategory,
filters the secondary container, answers 404 when nothing matches, otherwise
converts all matches (500 on a conversion failure). -/
def get_lost_items_by_subcategory (env : Env) (validate : Doc → Except String Doc)
    (subcategory : String) : Resp (List Doc) :=
  let sub := env.select_category subcategory
  let items := queryStore env.bySubcategory [Clause.itemCategoryEq sub]
  if items.isEmpty then
    .err 404 ("Lost items with subcategory '" ++ sub ++ "' not found")
  else
    match convertItems validate items with
    | .ok l => .ok l
    | .error e => .err 500 ("データの変換に失敗しました: " ++ e)

/-- Lowercase hex digit, as Python renders uuid bytes. -/
def hexChar (n : Nat) : Char :=
  if n < 10 then Char.ofNat (48 + n) else Char.ofNat (87 + n)

/-- Big-endian fixed-width hex rendering of a number. -/
def hexDigits : Nat → Nat → List Char
  | 0, _ => []
  | len + 1, n => hexDigits len (n / 16) ++ [hexChar (n % 16)]

/-- str(uuid.uuid4()) with the 128 random bits made explicit: 32 lowercase hex
digits grouped 8-4-4-4-12 by hyphens. -/
def uuidStr (entropy : Nat) : String :=
  let h := hexDigits 32 (entropy % 2 ^ 128)
  String.mk (h.take 8 ++ [Char.ofNat 45] ++ (h.drop 8).take 4 ++ [Char.ofNat 45]
    ++ (h.drop 12).take 4 ++ [Char.ofNat 45] ++ (h.drop 16).take 4
    ++ [Char.ofNat 45] ++ h.drop 20)

/-- The document `add_lost_item` builds (lines 123-126): the request dict with
a fresh uuid overwriting any caller-supplied id, and the creation timestamp. -/
def createdDoc (reqDict : Doc) (entropy now : Nat) : Doc :=
  setAssoc (setAssoc reqDict "id" (Val.str (uuidStr entropy)))
    "DateFound" (Val.time now)

/-- POST /lostitems (lines 114-142): persists the created document, then
converts it to the response model; a failure after the write leaves the
document in the store and surfaces as a 500. Returns (response, new store). -/
def add_lost_item (store : List Doc) (validate : Doc → Except String Doc)
    (reqDict : Doc) (entropy now : Nat) : Resp Doc × List Doc :=
  let data := createdDoc reqDict entropy now
  let newStore := store ++ [data]
  match validate data with
  | .ok d => (.ok d, newStore)
  | .error e => (.err 500 ("アイテムの追加に失敗しました: " ++ e), newStore)

/-- Cosmos read_item(item=item_id, partition_key=pk) at line 153: a point read
by id and partition key; it errors when the payload carries no partition key
or no document has both that id and that partition-key value. -/
def read_item (store : List Doc) (item_id : String) (pk : Option String) :
    Except String Doc :=
  match pk with
  | none => .error "partition key absent"
  | some p =>
    match store.find? (fun d =>
        getAssoc d "id" == some (Val.str item_id)
          && getAssoc d "createUserPlace" == some (Val.str p)) with
    | some d => .ok d
    | none => .error "item not found"

/-- The merge loop of `update_lost_item` (lines 161-162): every key of the
update dict is assigned into the existing document. -/
def applyUpdates (existing upd : Doc) : Doc :=
  upd.foldl (fun d kv => setAssoc d kv.1 kv.2) existing

/-- PUT /lostitems/item_id (lines 144-178): reads by id and the payload's
createUserPlace, stamps DateUpdated into the update dict (item.dict with
exclude_unset=True), merges, writes back (`writeOk` injects an external
replace_item failure), converts. The one try/except turns every failure,
including the not-found read, into a 500. Returns (response, new store). -/
def update_lost_item (store : List Doc) (validate : Doc → Except String Doc)
    (item_id : String) (reqPk : Option String) (updPayload : Doc)
    (now : Nat) (writeOk : Bool) : Resp Doc × List Doc :=
  match read_item store item_id reqPk with
  | .error e => (.err 500 ("アイテムの更新に失敗しました: " ++ e), store)
  | .ok existing =>
    let updateData := setAssoc updPayload "DateUpdated" (Val.time now)
    let merged := applyUpdates existing updateData
    if writeOk then
      let newStore := store.map (fun d =>
        if getAssoc d "id" == some (Val.str item_id)
            && getAssoc d "createUserPlace" == getAssoc existing "createUserPlace"
        then merged else d)
      match validate merged with
      | .ok u => (.ok u, newStore)
      | .error e => (.err 500 ("アイテムの更新に失敗しました: " ++ e), newStore)
    else (.err 500 ("アイテムの更新に失敗しました: replace failed"), store)

/-- BLOB_CONTAINER_NAME (line 35): the fixed blob container. -/
def BLOB_CONTAINER_NAME : String := "images"

/-- POST /upload-image (lines 195-218): upload_blob(..., overwrite=True) into
the fixed container under the verbatim file name, then the URL composed from
the account URL, the container name and the file name (line 213). Returns
(response, new blob container contents). -/
def upload_image (blobs : List (String × List Nat)) (accountUrl : String)
    (filename : String) (content : List Nat) :
    Resp String × List (String × List Nat) :=
  let newBlobs := setAssoc blobs filename content
  let url := accountUrl ++ "/" ++ BLOB_CONTAINER_NAME ++ "/" ++ filename
  (Resp.ok url, newBlobs)

/-- A concrete lost-item document, used to evaluate the handlers. -/
def sampleDoc : Doc :=
  [("id", Val.str "abc"), ("createUserPlace", Val.str "Shibuya"),
   ("item", Val.obj [("categoryName", "wallet")]),
   ("DateFound", Val.time 0)]

/-- A validator accepting every document (a record passing shape validation). -/
def idValidate : Doc → Except String Doc := fun d => .ok d

/-- A validator rejecting every document (a record failing shape validation). -/
def badValidate : Doc → Except String Doc := fun _ => .error "boom"

/-- A concrete environment whose delegate is the identity normalization. -/
def sampleEnv : Env :=
  { lostItems := [], bySubcategory := [sampleDoc],
    select_location := fun s => s, select_category := fun s => s }

/-! ## Dict lemmas -/

theorem isEmpty_false_of_mem {α : Type} (l : List α) (a : α) (h : a ∈ l) :
    l.isEmpty = false := by
  cases l
  · cases h
  · rfl

theorem getAssoc_setAssoc_self {β : Type} (d : List (String × β)) (k : String) (v : β) :
    getAssoc (setAssoc d k v) k = some v := by
  induction d with
  | nil => simp [setAssoc, getAssoc]
  | cons hd tl ih =>
    by_cases h : hd.1 = k
    · simp [setAssoc, getAssoc, h]
    · simp [setAssoc, getAssoc, h, ih]

theorem getAssoc_setAssoc_ne {β : Type} (d : List (String × β)) (k f : String) (v : β)
    (hne : f ≠ k) : getAssoc (setAssoc d k v) f = getAssoc d f := by
  have hkf : ¬k = f := fun hh => hne hh.symm
  induction d with
  | nil => simp [setAssoc, getAssoc, hkf]
  | cons hd tl ih =>
    obtain ⟨k1, v1⟩ := hd
    by_cases h : k1 = k
    · subst h
      simp [setAssoc, getAssoc, hkf]
    · simp [setAssoc, getAssoc, h, ih]

theorem keys_setAssoc {β : Type} (d : List (String × β)) (k : String) (v : β) :
    (setAssoc d k v).map Prod.fst = d.map Prod.fst
      ∨ (setAssoc d k v).map Prod.fst = d.map Prod.fst ++ [k] := by
  induction d with
  | nil => right; simp [setAssoc]
  | cons hd tl ih =>
    obtain ⟨k1, v1⟩ := hd
    by_cases h : k1 = k
    · left; simp [setAssoc, h]
    · rcases ih with ih | ih
      · left; simp [setAssoc, h, ih]
      · right; simp [setAssoc, h, ih]

theorem nodup_keys_setAssoc {β : Type} (d : List (String × β)) (k : String) (v : β)
    (hnd : (d.map Prod.fst).Nodup) : ((setAssoc d k v).map Prod.fst).Nodup := by
  induction d with
  | nil => simp [setAssoc]
  | cons hd tl ih =>
    obtain ⟨k1, v1⟩ := hd
    rw [List.map_cons, List.nodup_cons] at hnd
    by_cases h : k1 = k
    · rw [setAssoc, if_pos h, List.map_cons, List.nodup_cons]
      exact hnd
    · rw [setAssoc, if_neg h, List.map_cons, List.nodup_cons]
      refine ⟨?_, ih hnd.2⟩
      intro hmem
      rcases keys_setAssoc tl k v with he | he
      · exact hnd.1 (he ▸ hmem)
      · rw [he, List.mem_append] at hmem
        rcases hmem with hm | hm
        · exact hnd.1 hm
        · exact h (by simpa using hm)

theorem mem_keys_of_getAssoc_some {β : Type} (d : List (String × β)) (f : String)
    (v : β) (h : getAssoc d f = some v) : f ∈ d.map Prod.fst := by
  induction d with
  | nil => simp [getAssoc] at h
  | cons hd tl ih =>
    obtain ⟨k1, v1⟩ := hd
    rw [getAssoc] at h
    by_cases hk : k1 = f
    · simp [hk]
    · rw [if_neg hk] at h
      simp [ih h]

theorem getAssoc_eq_none_of_not_mem {β : Type} (d : List (String × β)) (f : String)
    (h : f ∉ d.map Prod.fst) : getAssoc d f = none := by
  rcases hg : getAssoc d f with _ | v
  · rfl
  · exact absurd (mem_keys_of_getAssoc_some d f v hg) h

theorem getAssoc_applyUpdates_none (u : Doc) (f : String) (h : getAssoc u f = none) :
    ∀ e : Doc, getAssoc (applyUpdates e u) f = getAssoc e f := by
  induction u with
  | nil => intro e; rfl
  | cons kv rest ih =>
    intro e
    obtain ⟨k1, v1⟩ := kv
    rw [getAssoc] at h
    by_cases hk : k1 = f
    · rw [if_pos hk] at h
      cases h
    · rw [if_neg hk] at h
      show getAssoc (applyUpdates (setAssoc e k1 v1) rest) f = getAssoc e f
      rw [ih h, getAssoc_setAssoc_ne _ _ _ _ (fun hh => hk hh.symm)]

theorem getAssoc_applyUpdates_some (u : Doc) (f : String) (v : Val)
    (hnd : (u.map Prod.fst).Nodup) (h : getAssoc u f = some v) :
    ∀ e : Doc, getAssoc (applyUpdates e u) f = some v := by
  induction u with
  | nil => simp [getAssoc] at h
  | cons kv rest ih =>
    intro e
    obtain ⟨k1, v1⟩ := kv
    rw [List.map_cons, List.nodup_cons] at hnd
    rw [getAssoc] at h
    by_cases hk : k1 = f
    · rw [if_pos hk] at h
      cases h
      show getAssoc (applyUpdates (setAssoc e k1 v) rest) f = some v
      have hrest : getAssoc rest f = none :=
        getAssoc_eq_none_of_not_mem rest f (hk ▸ hnd.1)
      rw [getAssoc_applyUpdates_none rest f hrest]
      subst hk
      exact getAssoc_setAssoc_self e k1 v
    · rw [if_neg hk] at h
      exact ih hnd.2 h (setAssoc e k1 v1)

/-! ## uuid lemmas -/

theorem hexDigits_length (len : Nat) : ∀ n, (hexDigits len n).length = len := by
  induction len with
  | zero => intro n; rfl
  | succ l ih => intro n; simp [hexDigits, ih]

theorem hexChar_ne_hyphen : ∀ n, n < 16 → hexChar n ≠ Char.ofNat 45 := by decide

theorem hexChar_injOn : ∀ a, a < 16 → ∀ b, b < 16 → hexChar a = hexChar b → a = b := by
  decide

theorem hexDigits_mem_ne (len : Nat) : ∀ n, ∀ c ∈ hexDigits len n, c ≠ Char.ofNat 45 := by
  induction len with
  | zero => intro n c hc; cases hc
  | succ l ih =>
    intro n c hc
    rw [hexDigits] at hc
    rcases List.mem_append.mp hc with h | h
    · exact ih _ c h
    · have hc2 : c = hexChar (n % 16) := by simpa using h
      subst hc2
      exact hexChar_ne_hyphen (n % 16) (Nat.mod_lt _ (by norm_num))

theorem hexDigits_inj (len : Nat) :
    ∀ m n, m < 16 ^ len → n < 16 ^ len → hexDigits len m = hexDigits len n → m = n := by
  induction len with
  | zero =>
    intro m n hm hn _
    simp only [pow_zero, Nat.lt_one_iff] at hm hn
    rw [hm, hn]
  | succ l ih =>
    intro m n hm hn h
    rw [hexDigits, hexDigits] at h
    have hlen : (hexDigits l (m / 16)).length = (hexDigits l (n / 16)).length := by
      rw [hexDigits_length, hexDigits_length]
    obtain ⟨h1, h2⟩ := List.append_inj h hlen
    have hpow : 16 ^ (l + 1) = 16 ^ l * 16 := pow_succ 16 l
    have hm16 : m / 16 < 16 ^ l := by
      rw [hpow] at hm
      omega
    have hn16 : n / 16 < 16 ^ l := by
      rw [hpow] at hn
      omega
    have hdiv : m / 16 = n / 16 := ih _ _ hm16 hn16 h1
    have hc : hexChar (m % 16) = hexChar (n % 16) := by
      simpa using h2
    have hmod : m % 16 = n % 16 :=
      hexChar_injOn _ (Nat.mod_lt _ (by norm_num)) _ (Nat.mod_lt _ (by norm_num)) hc
    omega

theorem uuidStr_data (x : Nat) :
    (uuidStr x).data =
      (hexDigits 32 (x % 2 ^ 128)).take 8 ++ [Char.ofNat 45]
        ++ ((hexDigits 32 (x % 2 ^ 128)).drop 8).take 4 ++ [Char.ofNat 45]
        ++ ((hexDigits 32 (x % 2 ^ 128)).drop 12).take 4 ++ [Char.ofNat 45]
        ++ ((hexDigits 32 (x % 2 ^ 128)).drop 16).take 4 ++ [Char.ofNat 45]
        ++ (hexDigits 32 (x % 2 ^ 128)).drop 20 := rfl

theorem filter_uuid_general (h : List Char) (hne : ∀ c ∈ h, c ≠ Char.ofNat 45) :
    (h.take 8 ++ [Char.ofNat 45] ++ (h.drop 8).take 4 ++ [Char.ofNat 45]
      ++ (h.drop 12).take 4 ++ [Char.ofNat 45] ++ (h.drop 16).take 4
      ++ [Char.ofNat 45] ++ h.drop 20).filter (fun c => c != Char.ofNat 45) = h := by
  have hseg : ∀ l : List Char, l ⊆ h → l.filter (fun c => c != Char.ofNat 45) = l := by
    intro l hsub
    rw [List.filter_eq_self]
    intro c hc
    simpa using hne c (hsub hc)
  have hhy : [Char.ofNat 45].filter (fun c => c != Char.ofNat 45) = [] := by
    simp [List.filter]
  simp only [List.append_assoc, List.filter_append]
  rw [hhy]
  rw [hseg _ (List.take_subset _ _)]
  rw [hseg _ (List.Subset.trans (List.take_subset _ _) (List.drop_subset _ _))]
  rw [hseg _ (List.Subset.trans (List.take_subset _ _) (List.drop_subset _ _))]
  rw [hseg _ (List.Subset.trans (List.take_subset _ _) (List.drop_subset _ _))]
  rw [hseg _ (List.drop_subset _ _)]
  simp only [List.nil_append]
  have e12 : (h.drop 8).drop 4 = h.drop 12 := by rw [List.drop_drop]
  have e16 : (h.drop 12).drop 4 = h.drop 16 := by rw [List.drop_drop]
  have e20 : (h.drop 16).drop 4 = h.drop 20 := by rw [List.drop_drop]
  rw [← e20, List.take_append_drop, ← e16, List.take_append_drop,
    ← e12, List.take_append_drop, List.take_append_drop]

theorem filter_uuid_data (x : Nat) :
    ((uuidStr x).data).filter (fun c => c != Char.ofNat 45)
      = hexDigits 32 (x % 2 ^ 128) := by
  rw [uuidStr_data]
  exact filter_uuid_general (hexDigits 32 (x % 2 ^ 128))
    (hexDigits_mem_ne 32 (x % 2 ^ 128))

theorem uuidStr_inj (m n : Nat) (hm : m < 2 ^ 128) (hn : n < 2 ^ 128)
    (h : uuidStr m = uuidStr n) : m = n := by
  have hdata : (uuidStr m).data = (uuidStr n).data := by rw [h]
  have hfil := congrArg (List.filter (fun c => c != Char.ofNat 45)) hdata
  rw [filter_uuid_data, filter_uuid_data] at hfil
  have hp : (16 : Nat) ^ 32 = 2 ^ 128 := by norm_num
  have := hexDigits_inj 32 (m % 2 ^ 128) (n % 2 ^ 128)
    (by rw [hp]; exact Nat.mod_lt _ (by norm_num))
    (by rw [hp]; exact Nat.mod_lt _ (by norm_num)) hfil
  rw [Nat.mod_eq_of_lt hm, Nat.mod_eq_of_lt hn] at this
  exact this

theorem length_uuid_general (h : List Char) (hlen : h.length = 32) :
    (h.take 8 ++ [Char.ofNat 45] ++ (h.drop 8).take 4 ++ [Char.ofNat 45]
      ++ (h.drop 12).take 4 ++ [Char.ofNat 45] ++ (h.drop 16).take 4
      ++ [Char.ofNat 45] ++ h.drop 20).length = 36 := by
  simp [List.length_append, List.length_take, List.length_drop, hlen]

theorem uuidStr_length (x : Nat) : (uuidStr x).length = 36 := by
  have hd : (uuidStr x).length = ((uuidStr x).data).length := rfl
  rw [hd, uuidStr_data]
  exact length_uuid_general (hexDigits 32 (x % 2 ^ 128))
    (hexDigits_length 32 (x % 2 ^ 128))

theorem uuidStr_ne_empty (x : Nat) : uuidStr x ≠ "" := by
  intro h
  have := congrArg String.length h
  rw [uuidStr_length] at this
  simp at this

/-! ## Conversion lemmas -/

theorem convertItems_length (validate : Doc → Except String Doc) (items l : List Doc)
    (h : convertItems validate items = .ok l) : l.length = items.length := by
  induction items generalizing l with
  | nil =>
    simp only [convertItems] at h
    cases h
    rfl
  | cons d rest ih =>
    simp only [convertItems] at h
    rcases hv : validate d with e | x
    · rw [hv] at h; exact absurd h (by simp)
    · rw [hv] at h
      rcases hr : convertItems validate rest with e | xs
      · rw [hr] at h; exact absurd h (by simp)
      · rw [hr] at h
        cases h
        simp [ih xs hr]

theorem convertItems_error_of_mem (validate : Doc → Except String Doc)
    (items : List Doc) (d : Doc) (msg : String)
    (hmem : d ∈ items) (hbad : validate d = .error msg) :
    ∃ e, convertItems validate items = .error e := by
  induction items with
  | nil => cases hmem
  | cons hd rest ih =>
    rcases List.mem_cons.mp hmem with h | h
    · subst h
      exact ⟨msg, by simp [convertItems, hbad]⟩
    · rcases hv : validate hd with e | x
      · exact ⟨e, by simp [convertItems, hv]⟩
      · rcases ih h with ⟨e, he⟩
        exact ⟨e, by simp [convertItems, hv, he]⟩

/-! ## Store and read lemmas -/

theorem queryStore_nil_filters (store : List Doc) : queryStore store [] = store := by
  simp [queryStore]

theorem read_item_place (store : List Doc) (item_id p : String) (e : Doc)
    (h : read_item store item_id (some p) = .ok e) :
    getAssoc e "createUserPlace" = some (Val.str p)
      ∧ getAssoc e "id" = some (Val.str item_id) := by
  simp only [read_item] at h
  rcases hf : store.find? (fun d =>
      getAssoc d "id" == some (Val.str item_id)
        && getAssoc d "createUserPlace" == some (Val.str p)) with _ | d
  · rw [hf] at h; exact absurd h (by simp)
  · rw [hf] at h
    cases h
    have := List.find?_some hf
    simp only [Bool.and_eq_true, beq_iff_eq] at this
    exact ⟨this.2, this.1⟩

/-! ## Claim theorems -/

/-- C3: for every combination of the optional municipality and categoryName
parameters, each present (non-empty) parameter is passed through the
normalization delegate and rendered as an equality filter clause, clauses are
joined with logical AND, and with both parameters absent the executed query is
the unfiltered full-collection read. -/
theorem C3_listing_query_construction (loc catf : String → String) (m c : String)
    (store : List Doc) (hm : m ≠ "") (hc : c ≠ "") :
    buildListQuery loc catf none none = "SELECT * FROM c"
      ∧ queryStore store (listFilters loc catf none none) = store
      ∧ buildListQuery loc catf (some m) none
          = "SELECT * FROM c WHERE c.createUserPlace = '" ++ loc m ++ "'"
      ∧ buildListQuery loc catf none (some c)
          = "SELECT * FROM c WHERE c.item.categoryName = '" ++ catf c ++ "'"
      ∧ buildListQuery loc catf (some m) (some c)
          = "SELECT * FROM c WHERE c.createUserPlace = '" ++ loc m
              ++ "' AND c.item.categoryName = '" ++ catf c ++ "'"
      ∧ listFilters loc catf (some m) (some c)
          = [Clause.placeEq (loc m), Clause.itemCategoryEq (catf c)] := by
  have hmE : m.isEmpty = false := by
    cases hE : m.isEmpty
    · rfl
    · exact absurd ((String.isEmpty_iff m).mp hE) hm
  have hcE : c.isEmpty = false := by
    cases hE : c.isEmpty
    · rfl
    · exact absurd ((String.isEmpty_iff c).mp hE) hc
  refine ⟨rfl, queryStore_nil_filters store, ?_, ?_, ?_, ?_⟩
  · simp only [buildListQuery, listFilters, truthy, hmE, Bool.not_false, if_true,
      if_false, Option.getD_some, List.append_nil, List.map_cons, List.map_nil,
      renderClause, List.isEmpty_cons, String.intercalate, String.intercalate.go]
    simp only [String.append_assoc]
    rfl
  · simp only [buildListQuery, listFilters, truthy, hcE, Bool.not_false, if_true,
      if_false, Option.getD_some, List.nil_append, List.map_cons, List.map_nil,
      renderClause, List.isEmpty_cons, String.intercalate, String.intercalate.go]
    simp only [String.append_assoc]
    rfl
  · simp only [buildListQuery, listFilters, truthy, hmE, hcE, Bool.not_false,
      if_true, Option.getD_some, List.cons_append, List.nil_append, List.map_cons,
      List.map_nil, renderClause, List.isEmpty_cons, String.intercalate,
      String.intercalate.go]
    simp only [String.append_assoc]
    rfl
  · simp only [listFilters, truthy, hmE, hcE, Bool.not_false, if_true,
      Option.getD_some, List.cons_append, List.nil_append]

/-- C3 witness: the theorem applied at the identity delegate with the concrete
municipality Shibuya and category wallet. -/
theorem C3_listing_query_construction_witness :
    buildListQuery (fun s => s) (fun s => s) (some "Shibuya") (some "wallet")
      = "SELECT * FROM c WHERE c.createUserPlace = 'Shibuya'"
          ++ " AND c.item.categoryName = 'wallet'" := by
  have h := C3_listing_query_construction (fun s => s) (fun s => s)
    "Shibuya" "wallet" [] (by decide) (by decide)
  rw [h.2.2.2.2.1]
  rfl

/-- C9: passing an empty string for municipality or categoryName behaves
exactly like omitting the parameter: the handler result is identical, no
filter clause is produced for any delegate, and the built query is the
unfiltered full-collection read. -/
theorem C9_empty_string_like_omitted (env : Env) (validate : Doc → Except String Doc)
    (loc1 catf1 loc2 catf2 : String → String) :
    get_lost_items env validate (some "") (some "")
        = get_lost_items env validate none none
      ∧ get_lost_items env validate (some "") none
        = get_lost_items env validate none none
      ∧ get_lost_items env validate none (some "")
        = get_lost_items env validate none none
      ∧ listFilters loc1 catf1 (some "") (some "") = []
      ∧ buildListQuery loc1 catf1 (some "") (some "") = "SELECT * FROM c"
      ∧ buildListQuery loc1 catf1 (some "") (some "")
        = buildListQuery loc2 catf2 none none :=
  ⟨rfl, rfl, rfl, rfl, rfl, rfl⟩

/-- C2: an empty result set yields an empty list from the general listing
endpoint but a 404 from the subcategory endpoint, and when matches exist the
subcategory endpoint returns all of them, not just one. -/
theorem C2_empty_result_asymmetry (env : Env) (validate : Doc → Except String Doc)
    (municipality categoryName : Option String) (sub : String) (l : List Doc) :
    (queryStore env.lostItems
          (listFilters env.select_location env.select_category municipality categoryName) = [] →
        get_lost_items env validate municipality categoryName = Resp.ok [])
      ∧ (queryStore env.bySubcategory
            [Clause.itemCategoryEq (env.select_category sub)] = [] →
        get_lost_items_by_subcategory env validate sub
          = Resp.err 404 ("Lost items with subcategory '"
              ++ env.select_category sub ++ "' not found"))
      ∧ (convertItems validate
            (queryStore env.bySubcategory
              [Clause.itemCategoryEq (env.select_category sub)]) = Except.ok l →
        queryStore env.bySubcategory
            [Clause.itemCategoryEq (env.select_category sub)] ≠ [] →
        get_lost_items_by_subcategory env validate sub = Resp.ok l
          ∧ l.length = (queryStore env.bySubcategory
              [Clause.itemCategoryEq (env.select_category sub)]).length) := by
  refine ⟨?_, ?_, ?_⟩
  · intro hempty
    simp only [get_lost_items, hempty]
    rfl
  · intro hempty
    simp only [get_lost_items_by_subcategory, hempty]
    rfl
  · intro hconv hne
    have hF : (queryStore env.bySubcategory
        [Clause.itemCategoryEq (env.select_category sub)]).isEmpty = false := by
      cases hq : queryStore env.bySubcategory
          [Clause.itemCategoryEq (env.select_category sub)]
      · exact absurd hq hne
      · rfl
    constructor
    · simp only [get_lost_items_by_subcategory, hF, Bool.false_eq_true, if_false, hconv]
    · exact convertItems_length validate _ l hconv

/-- C2 witness: the theorem applied to a store with one wallet record: empty
listing returns the empty list, an unmatched subcategory yields the 404, and
the matching subcategory returns the full singleton list. -/
theorem C2_empty_result_asymmetry_witness :
    get_lost_items sampleEnv idValidate none none = Resp.ok []
      ∧ get_lost_items_by_subcategory sampleEnv idValidate "phone"
        = Resp.err 404 "Lost items with subcategory 'phone' not found"
      ∧ get_lost_items_by_subcategory sampleEnv idValidate "wallet"
        = Resp.ok [sampleDoc] := by
  refine ⟨(C2_empty_result_asymmetry sampleEnv idValidate none none "wallet" []).1 rfl,
    ?_, ?_⟩
  · have h := (C2_empty_result_asymmetry sampleEnv idValidate none none "phone" []).2.1
    rw [h (by rfl)]
    rfl
  · have h := (C2_empty_result_asymmetry sampleEnv idValidate none none "wallet"
      [sampleDoc]).2.2
    exact (h (by rfl) (by intro hq; cases hq)).1

/-- C8: a listing query result containing a record that fails shape validation
aborts the whole request with a 500 server error whose detail carries the
underlying message, and no partial list is returned. -/
theorem C8_validation_failure_aborts (env : Env) (validate : Doc → Except String Doc)
    (municipality categoryName : Option String) (d : Doc) (msg : String)
    (hmem : d ∈ queryStore env.lostItems
      (listFilters env.select_location env.select_category municipality categoryName))
    (hbad : validate d = .error msg) :
    ∃ e, get_lost_items env validate municipality categoryName
        = Resp.err 500 ("データの変換に失敗しました: " ++ e)
      ∧ ∀ l : List Doc,
          get_lost_items env validate municipality categoryName ≠ Resp.ok l := by
  obtain ⟨e, he⟩ := convertItems_error_of_mem validate _ d msg hmem hbad
  have hF := isEmpty_false_of_mem _ d hmem
  have hmain : get_lost_items env validate municipality categoryName
      = Resp.err 500 ("データの変換に失敗しました: " ++ e) := by
    simp only [get_lost_items, hF, Bool.false_eq_true, if_false, he]
  refine ⟨e, hmain, ?_⟩
  intro l hl
  rw [hmain] at hl
  cases hl

/-- C8 witness: the theorem applied to a one-record store whose validator
rejects everything: the whole listing request fails with the 500. -/
theorem C8_validation_failure_aborts_witness :
    ∃ e, get_lost_items
        { lostItems := [sampleDoc], bySubcategory := [],
          select_location := fun s => s, select_category := fun s => s }
        badValidate none none
        = Resp.err 500 ("データの変換に失敗しました: " ++ e)
      ∧ ∀ l : List Doc, get_lost_items
          { lostItems := [sampleDoc], bySubcategory := [],
            select_location := fun s => s, select_category := fun s => s }
          badValidate none none ≠ Resp.ok l :=
  C8_validation_failure_aborts _ badValidate none none sampleDoc "boom"
    (List.mem_singleton.mpr rfl) rfl

/-- C5: the create operation returns the persisted document, whose id is the
non-empty server-generated uuid (any caller-supplied id is overwritten and
distinct random draws give distinct ids), whose DateFound is the
server-assigned creation timestamp, and whose every other field echoes the
payload unchanged. -/
theorem C5_create_id_and_echo (store : List Doc) (validate : Doc → Except String Doc)
    (reqDict : Doc) (entropy now : Nat)
    (hval : validate (createdDoc reqDict entropy now)
      = .ok (createdDoc reqDict entropy now)) :
    add_lost_item store validate reqDict entropy now
        = (Resp.ok (createdDoc reqDict entropy now),
           store ++ [createdDoc reqDict entropy now])
      ∧ getAssoc (createdDoc reqDict entropy now) "id"
        = some (Val.str (uuidStr entropy))
      ∧ uuidStr entropy ≠ ""
      ∧ (uuidStr entropy).length = 36
      ∧ getAssoc (createdDoc reqDict entropy now) "DateFound" = some (Val.time now)
      ∧ (∀ f, f ≠ "id" → f ≠ "DateFound" →
          getAssoc (createdDoc reqDict entropy now) f = getAssoc reqDict f)
      ∧ (∀ a b, a < 2 ^ 128 → b < 2 ^ 128 → uuidStr a = uuidStr b → a = b) := by
  refine ⟨?_, ?_, uuidStr_ne_empty entropy, uuidStr_length entropy, ?_, ?_,
    fun a b => uuidStr_inj a b⟩
  · simp only [add_lost_item, hval]
  · simp only [createdDoc]
    rw [getAssoc_setAssoc_ne _ _ _ _ (by decide), getAssoc_setAssoc_self]
  · simp only [createdDoc]
    exact getAssoc_setAssoc_self _ _ _
  · intro f hf1 hf2
    simp only [createdDoc]
    rw [getAssoc_setAssoc_ne _ _ _ _ hf2, getAssoc_setAssoc_ne _ _ _ _ hf1]

/-- C5 witness: the theorem applied to a concrete payload containing a
caller-supplied id, which the created document overwrites with the uuid. -/
theorem C5_create_id_and_echo_witness :
    add_lost_item [] idValidate
        [("createUserPlace", Val.str "Shibuya"), ("id", Val.str "mine")] 5 7
      = (Resp.ok (createdDoc
          [("createUserPlace", Val.str "Shibuya"), ("id", Val.str "mine")] 5 7),
         [createdDoc
          [("createUserPlace", Val.str "Shibuya"), ("id", Val.str "mine")] 5 7])
      ∧ getAssoc (createdDoc
          [("createUserPlace", Val.str "Shibuya"), ("id", Val.str "mine")] 5 7) "id"
        = some (Val.str (uuidStr 5)) := by
  have h := C5_create_id_and_echo []
    idValidate [("createUserPlace", Val.str "Shibuya"), ("id", Val.str "mine")] 5 7 rfl
  exact ⟨h.1, h.2.1⟩

/-- C10: the create operation is not atomic on error: when the store write has
succeeded but the subsequent response-model conversion fails, the endpoint
answers 500 while the new record remains persisted in the store. -/
theorem C10_create_not_atomic (store : List Doc) (validate : Doc → Except String Doc)
    (reqDict : Doc) (entropy now : Nat) (e : String)
    (hval : validate (createdDoc reqDict entropy now) = .error e) :
    add_lost_item store validate reqDict entropy now
        = (Resp.err 500 ("アイテムの追加に失敗しました: " ++ e),
           store ++ [createdDoc reqDict entropy now])
      ∧ createdDoc reqDict entropy now
        ∈ (add_lost_item store validate reqDict entropy now).2 := by
  have h1 : add_lost_item store validate reqDict entropy now
      = (Resp.err 500 ("アイテムの追加に失敗しました: " ++ e),
         store ++ [createdDoc reqDict entropy now]) := by
    simp only [add_lost_item, hval]
  refine ⟨h1, ?_⟩
  rw [h1]
  exact List.mem_append_right _ (List.mem_singleton.mpr rfl)

/-- C10 witness: the theorem applied with a validator rejecting the created
document: a 500 response while the document sits in the store. -/
theorem C10_create_not_atomic_witness :
    add_lost_item [] badValidate [("createUserPlace", Val.str "Shibuya")] 5 7
      = (Resp.err 500 ("アイテムの追加に失敗しました: " ++ "boom"),
         [createdDoc [("createUserPlace", Val.str "Shibuya")] 5 7])
      ∧ createdDoc [("createUserPlace", Val.str "Shibuya")] 5 7
        ∈ (add_lost_item [] badValidate [("createUserPlace", Val.str "Shibuya")] 5 7).2 :=
  C10_create_not_atomic [] badValidate [("createUserPlace", Val.str "Shibuya")] 5 7
    "boom" rfl

/-- C7: the upload endpoint returns a URL deterministically composed of the
account base URL, the fixed container name and the verbatim file name; a
second upload under the same name overwrites the first object in the blob
container and returns the identical URL, leaving other objects untouched. -/
theorem C7_upload_overwrite_and_url (blobs : List (String × List Nat))
    (accountUrl filename : String) (c1 c2 : List Nat) :
    (upload_image blobs accountUrl filename c1).1
        = Resp.ok (accountUrl ++ "/" ++ BLOB_CONTAINER_NAME ++ "/" ++ filename)
      ∧ (upload_image (upload_image blobs accountUrl filename c1).2
          accountUrl filename c2).1 = (upload_image blobs accountUrl filename c1).1
      ∧ getAssoc (upload_image (upload_image blobs accountUrl filename c1).2
          accountUrl filename c2).2 filename = some c2
      ∧ ∀ f, f ≠ filename →
          getAssoc (upload_image (upload_image blobs accountUrl filename c1).2
            accountUrl filename c2).2 f = getAssoc blobs f := by
  refine ⟨rfl, rfl, ?_, ?_⟩
  · show getAssoc (setAssoc (setAssoc blobs filename c1) filename c2) filename = some c2
    exact getAssoc_setAssoc_self _ _ _
  · intro f hf
    show getAssoc (setAssoc (setAssoc blobs filename c1) filename c2) f = getAssoc blobs f
    rw [getAssoc_setAssoc_ne _ _ _ _ hf, getAssoc_setAssoc_ne _ _ _ _ hf]

/-- C7 witness: two concrete uploads under the same name: same URL both times
and the second content stored. -/
theorem C7_upload_overwrite_and_url_witness :
    (upload_image [] "https://acct" "a.png" [1]).1 = Resp.ok "https://acct/images/a.png"
      ∧ getAssoc (upload_image (upload_image [] "https://acct" "a.png" [1]).2
          "https://acct" "a.png" [2]).2 "a.png" = some [2] := by
  have h := C7_upload_overwrite_and_url [] "https://acct" "a.png" [1] [2]
  refine ⟨?_, h.2.2.1⟩
  rw [h.1]
  rfl

/-- C1: an update whose payload sets exactly one field besides the required
createUserPlace changes the stored record only in that field plus the
DateUpdated stamp; every field not mentioned in the payload keeps its previous
value (createUserPlace included, the read having pinned it to the payload's
value). -/
theorem C1_update_single_field_frame (store : List Doc) (item_id p k : String)
    (v : Val) (updPayload : Doc) (now : Nat) (ex : Doc)
    (validate : Doc → Except String Doc)
    (hread : read_item store item_id (some p) = .ok ex)
    (hpayload : updPayload = [("createUserPlace", Val.str p), (k, v)])
    (hk1 : k ≠ "createUserPlace") (hk2 : k ≠ "DateUpdated")
    (hval : ∀ dd, validate dd = Except.ok dd) :
    ∃ merged,
      update_lost_item store validate item_id (some p) updPayload now true
          = (Resp.ok merged,
             store.map (fun d =>
               if getAssoc d "id" == some (Val.str item_id)
                   && getAssoc d "createUserPlace" == getAssoc ex "createUserPlace"
               then merged else d))
        ∧ getAssoc merged k = some v
        ∧ getAssoc merged "DateUpdated" = some (Val.time now)
        ∧ (∀ f, f ≠ k → f ≠ "DateUpdated" → getAssoc merged f = getAssoc ex f) := by
  subst hpayload
  have hck : ¬("createUserPlace" = k) := fun hh => hk1 hh.symm
  have hcd : ¬(("createUserPlace" : String) = "DateUpdated") := by decide
  have hupd : setAssoc [("createUserPlace", Val.str p), (k, v)]
        "DateUpdated" (Val.time now)
      = [("createUserPlace", Val.str p), (k, v), ("DateUpdated", Val.time now)] := by
    simp [setAssoc, hcd, hk2]
  have hnodup : (([("createUserPlace", Val.str p), (k, v),
      ("DateUpdated", Val.time now)] : Doc).map Prod.fst).Nodup := by
    simp [hck, hcd, hk2]
  refine ⟨applyUpdates ex (setAssoc [("createUserPlace", Val.str p), (k, v)]
    "DateUpdated" (Val.time now)), ?_, ?_, ?_, ?_⟩
  · simp only [update_lost_item, hread]
    simp [hval]
  · rw [hupd]
    exact getAssoc_applyUpdates_some _ k v hnodup (by simp [getAssoc, hck]) ex
  · rw [hupd]
    exact getAssoc_applyUpdates_some _ "DateUpdated" (Val.time now) hnodup
      (by simp [getAssoc, hcd, hk2]) ex
  · intro f hfk hfd
    by_cases hfc : f = "createUserPlace"
    · subst hfc
      have hexp := (read_item_place store item_id p ex hread).1
      rw [hupd, getAssoc_applyUpdates_some _ "createUserPlace" (Val.str p) hnodup
        (by simp [getAssoc]) ex, hexp]
    · have h1 : ¬(("createUserPlace" : String) = f) := fun hh => hfc hh.symm
      have h2 : ¬(k = f) := fun hh => hfk hh.symm
      have h3 : ¬(("DateUpdated" : String) = f) := fun hh => hfd hh.symm
      have hnone : getAssoc ([("createUserPlace", Val.str p), (k, v),
          ("DateUpdated", Val.time now)] : Doc) f = none := by
        simp [getAssoc, h1, h2, h3]
      rw [hupd, getAssoc_applyUpdates_none _ f hnone ex]

/-- C1 witness: updating the sample record's item field only: the merged
document carries the new item plus DateUpdated and keeps id, createUserPlace
and DateFound. -/
theorem C1_update_single_field_frame_witness :
    ∃ merged,
      update_lost_item [sampleDoc] idValidate "abc" (some "Shibuya")
          [("createUserPlace", Val.str "Shibuya"),
           ("item", Val.obj [("categoryName", "phone")])] 9 true
          = (Resp.ok merged,
             [sampleDoc].map (fun d =>
               if getAssoc d "id" == some (Val.str "abc")
                   && getAssoc d "createUserPlace" == getAssoc sampleDoc "createUserPlace"
               then merged else d))
        ∧ getAssoc merged "item" = some (Val.obj [("categoryName", "phone")])
        ∧ getAssoc merged "DateUpdated" = some (Val.time 9)
        ∧ (∀ f, f ≠ "item" → f ≠ "DateUpdated" →
            getAssoc merged f = getAssoc sampleDoc f) :=
  C1_update_single_field_frame [sampleDoc] "abc" "Shibuya" "item"
    (Val.obj [("categoryName", "phone")]) _ 9 sampleDoc idValidate (by rfl) rfl
    (by decide) (by decide) (fun dd => rfl)

/-- C4: a successful update does not mutate createUserPlace: the partition-key
field of the written-back record equals its value before the update. -/
theorem C4_partition_key_unchanged (store : List Doc) (item_id p : String)
    (updPayload : Doc) (now : Nat) (ex : Doc) (validate : Doc → Except String Doc)
    (hread : read_item store item_id (some p) = .ok ex)
    (hnd : (updPayload.map Prod.fst).Nodup)
    (hpk : getAssoc updPayload "createUserPlace" = some (Val.str p))
    (hval : ∀ dd, validate dd = Except.ok dd) :
    ∃ merged,
      update_lost_item store validate item_id (some p) updPayload now true
          = (Resp.ok merged,
             store.map (fun d =>
               if getAssoc d "id" == some (Val.str item_id)
                   && getAssoc d "createUserPlace" == getAssoc ex "createUserPlace"
               then merged else d))
        ∧ getAssoc merged "createUserPlace" = getAssoc ex "createUserPlace" := by
  have hexp := (read_item_place store item_id p ex hread).1
  have hnd2 : ((setAssoc updPayload "DateUpdated" (Val.time now)).map Prod.fst).Nodup :=
    nodup_keys_setAssoc updPayload "DateUpdated" (Val.time now) hnd
  have hget : getAssoc (setAssoc updPayload "DateUpdated" (Val.time now))
      "createUserPlace" = some (Val.str p) := by
    rw [getAssoc_setAssoc_ne _ _ _ _ (by decide)]
    exact hpk
  refine ⟨applyUpdates ex (setAssoc updPayload "DateUpdated" (Val.time now)), ?_, ?_⟩
  · simp only [update_lost_item, hread]
    simp [hval]
  · rw [getAssoc_applyUpdates_some _ "createUserPlace" (Val.str p) hnd2 hget ex, hexp]

/-- C4 witness: a concrete update carrying createUserPlace and a Status field:
the merged record's createUserPlace still equals the sample record's. -/
theorem C4_partition_key_unchanged_witness :
    ∃ merged,
      update_lost_item [sampleDoc] idValidate "abc" (some "Shibuya")
          [("createUserPlace", Val.str "Shibuya"), ("Status", Val.str "found")] 9 true
          = (Resp.ok merged,
             [sampleDoc].map (fun d =>
               if getAssoc d "id" == some (Val.str "abc")
                   && getAssoc d "createUserPlace" == getAssoc sampleDoc "createUserPlace"
               then merged else d))
        ∧ getAssoc merged "createUserPlace" = getAssoc sampleDoc "createUserPlace" :=
  C4_partition_key_unchanged [sampleDoc] "abc" "Shibuya"
    [("createUserPlace", Val.str "Shibuya"), ("Status", Val.str "found")] 9
    sampleDoc idValidate (by rfl) (by decide) rfl (fun dd => rfl)

/-- C6: the update reads by id and the payload's partition key; an absent
partition key, a mismatched key or missing record, and a failed write each
surface as a 500 server error with the localized detail, and no update failure
is ever reported with any status other than 500 (in particular not 404). -/
theorem C6_update_failure_semantics (store : List Doc) (validate : Doc → Except String Doc)
    (item_id : String) (reqPk : Option String) (updPayload : Doc) (now : Nat)
    (writeOk : Bool) :
    (reqPk = none →
        update_lost_item store validate item_id reqPk updPayload now writeOk
          = (Resp.err 500 ("アイテムの更新に失敗しました: partition key absent"), store))
      ∧ (∀ e, read_item store item_id reqPk = .error e →
        update_lost_item store validate item_id reqPk updPayload now writeOk
          = (Resp.err 500 ("アイテムの更新に失敗しました: " ++ e), store))
      ∧ (∀ p, reqPk = some p →
          (∀ d ∈ store, ¬(getAssoc d "id" = some (Val.str item_id)
            ∧ getAssoc d "createUserPlace" = some (Val.str p))) →
          read_item store item_id reqPk = .error "item not found")
      ∧ (∀ ex, read_item store item_id reqPk = .ok ex → writeOk = false →
        update_lost_item store validate item_id reqPk updPayload now writeOk
          = (Resp.err 500 ("アイテムの更新に失敗しました: replace failed"), store))
      ∧ (∀ s msg,
          (update_lost_item store validate item_id reqPk updPayload now writeOk).1
            = Resp.err s msg → s = 500) := by
  refine ⟨?_, ?_, ?_, ?_, ?_⟩
  · intro h
    subst h
    rfl
  · intro e he
    simp only [update_lost_item, he]
  · intro p hp hnone
    subst hp
    have hf : store.find? (fun d =>
        getAssoc d "id" == some (Val.str item_id)
          && getAssoc d "createUserPlace" == some (Val.str p)) = none := by
      rw [List.find?_eq_none]
      intro d hd
      simp only [Bool.and_eq_true, beq_iff_eq]
      exact hnone d hd
    simp only [read_item, hf]
  · intro ex hex hw
    subst hw
    simp only [update_lost_item, hex]
    rfl
  · intro s msg h
    cases hre : read_item store item_id reqPk with
    | error e =>
      simp only [update_lost_item, hre] at h
      injection h with h1 h2
      exact h1.symm
    | ok ex =>
      cases writeOk with
      | false =>
        simp only [update_lost_item, hre] at h
        injection h with h1 h2
        exact h1.symm
      | true =>
        cases hv : validate (applyUpdates ex
            (setAssoc updPayload "DateUpdated" (Val.time now))) with
        | ok u =>
          simp only [update_lost_item, hre, hv] at h
          cases h
        | error e2 =>
          simp only [update_lost_item, hre, hv] at h
          injection h with h1 h2
          exact h1.symm

/-- C6 witness: an update with no partition key in the payload fails with the
500, leaving the store as it was. -/
theorem C6_update_failure_semantics_witness :
    update_lost_item [] idValidate "x" none [] 0 true
      = (Resp.err 500 ("アイテムの更新に失敗しました: partition key absent"), []) :=
  (C6_update_failure_semantics [] idValidate "x" none [] 0 true).1 rfl

end LostItemSearch
